import Mathlib

/-
  Verification development for the kmd-idb repository: a promise-based
  adapter over the browser IndexedDB engine (src/src/idb.service.ts, with
  the compiled src/idb.service.js).

  The event-driven adapter is shallowly embedded as pure functions: each
  method is modelled by
    - a run trace (the lifecycle calls and engine requests it issues), and
    - a result function mapping the engine events delivered to its
      handlers to the settlement of the promise the method returns
      (Except rejectValue resolveValue; Option (Except ..) when the
      promise can stay pending forever).
  JavaScript values are modelled by the dynamic type JSVal; engine error
  events carry an abstract payload.
-/

set_option linter.unusedVariables false

namespace KmdIdb

/-- Dynamic JavaScript-style value: the adapter is untyped at runtime, so
keys, records and cast results all live in one value type. -/
inductive JSVal where
  | undef
  | boolean (b : Bool)
  | num (n : Int)
  | str (s : String)
  | arr (elems : List JSVal)
  | obj (fields : List (String × JSVal))

/-- Test for the JavaScript undefined value; models lodash isUndefined. -/
def JSVal.isUndef : JSVal → Bool
  | JSVal.undef => true
  | _ => false

/-- Engine error event payload (the evt object handed to an onerror
handler, abstracted to an identifying code). -/
structure ErrEvt where
  code : Nat
deriving Repr, DecidableEq

/-- Value a rejected promise carries: either a forwarded engine error
event (the evt itself, or its error property as in replaceObjectByKey),
or an Error the adapter constructed itself. -/
inductive RejectVal where
  | engineEvt (e : ErrEvt)
  | engineEvtError (e : ErrEvt)
  | localError (msg : String)
deriving Repr, DecidableEq

/-- True when the rejection value forwards an engine error event (either
the event itself or its error property). -/
def RejectVal.isEngineForward : RejectVal → Bool
  | RejectVal.engineEvt _ => true
  | RejectVal.engineEvtError _ => true
  | RejectVal.localError _ => false

/-- The adapter-constructed error messages appearing in the source:
the missing-indexedDB error of _init_, the undefined-key check of
replaceObjectByKey, and the two validation checks of
updateObjectsByIndex. -/
def localMsgs : List String :=
  ["Browser kit does not support indexedDB",
   "updateByIndex() needs a key value!",
   "updateByIndex() needs at least one PutParams",
   "updateByProperty() needs index of the value!"]

/-- True when the rejection value is one of the adapter-constructed
errors of the source: a message of localMsgs, or the open() exception
wrapper which prefixes the thrown value with ERROR. -/
def RejectVal.isListedLocal : RejectVal → Bool
  | RejectVal.localError msg => localMsgs.contains msg || msg.startsWith "ERROR: "
  | _ => false

/-- Cursor direction: IndexedDB prev; the engine default (ascending) is
modelled as none. -/
inductive Direction where
  | prev
deriving Repr, DecidableEq

/-- Host-engine cursor semantics (modelled from the IndexedDB contract):
given the records of a store or index in ascending key order, a cursor
with the default direction visits them ascending, and a cursor opened
with prev visits them in descending order. -/
def cursorVisitOrder (ascRecords : List JSVal) : Option Direction → List JSVal
  | some Direction.prev => ascRecords.reverse
  | none => ascRecords

/-- Direction argument of the cursor opened by getObjects in the
TypeScript source: reverse is mapped to undefined and the default false
to prev (line 243: reverse then undefined else prev). -/
def getObjectsDir (reverse : Bool) : Option Direction :=
  if reverse then none else some Direction.prev

/-- Direction argument of the cursor opened by getObjectsByIndex in the
TypeScript source (line 277: reverse then prev else undefined). -/
def getObjectsByIndexDir (reverse : Bool) : Option Direction :=
  if reverse then some Direction.prev else none

/-- Direction argument of the cursor opened by getObjects in the compiled
JavaScript (idb.service.js line 105: params.reverse then prev else
undefined). -/
def getObjectsDirJS (reverse : Bool) : Option Direction :=
  if reverse then some Direction.prev else none

/-- Abstract database handle passed to the configured callbacks. -/
structure IDBDatabase where
  id : Nat
deriving Repr, DecidableEq

/-- Client configuration interface IDBServiceConfig of the source;
onVersionChange and onBlocked are optional. -/
structure IDBServiceConfig where
  database : String
  version : Int
  onUpgradeNeeded : IDBDatabase → IDBDatabase
  onVersionChange : Option (IDBDatabase → Bool)
  onBlocked : Option (Unit → Unit)

/-- State of an IDBService instance after construction. The cfg fields
model the idbServiceConfig object retained by the instance, after the
constructor patched its onVersionChange member. -/
structure IDBService where
  database : String
  version : Int
  onupgradeneeded : IDBDatabase → IDBDatabase
  onblocked : Unit → Unit
  _db : Option IDBDatabase
  cfgOnUpgradeNeeded : IDBDatabase → IDBDatabase
  cfgOnVersionChange : IDBDatabase → Bool

/-- Constructor of IDBService: copies database, version and
onUpgradeNeeded, defaults onBlocked to a noop, and patches the retained
config so that an omitted onVersionChange becomes the constant-true
callback. The private _db field is declared but never assigned. -/
def IDBService.make (cfg : IDBServiceConfig) : IDBService :=
  { database := cfg.database
    version := cfg.version
    onupgradeneeded := cfg.onUpgradeNeeded
    onblocked := cfg.onBlocked.getD (fun _ => ())
    _db := none
    cfgOnUpgradeNeeded := cfg.onUpgradeNeeded
    cfgOnVersionChange := cfg.onVersionChange.getD (fun _ => true) }

/-- Callback invocation observed while handling the upgradeneeded
event. -/
inductive CallbackCall where
  | versionChange (db : IDBDatabase)
  | upgradeNeeded (db : IDBDatabase)
deriving Repr, DecidableEq

/-- Trace of configured-callback invocations made by the
request.onupgradeneeded handler installed by _init_ (lines 182 to 189):
it calls idbServiceConfig.onVersionChange on the database and, exactly
when that returns true, also calls idbServiceConfig.onUpgradeNeeded on
it. -/
def upgradeHandlerTrace (svc : IDBService) (db : IDBDatabase) : List CallbackCall :=
  if svc.cfgOnVersionChange db then
    [CallbackCall.versionChange db, CallbackCall.upgradeNeeded db]
  else
    [CallbackCall.versionChange db]

/-- Outcome of the engine open request observed by the handlers _init_
installs: the success event (carrying the database) or the error
event. -/
inductive OpenOutcome where
  | success (db : IDBDatabase)
  | error (e : ErrEvt)
deriving Repr, DecidableEq

/-- Event delivered to the handlers of a single engine request: the
success event carrying the request result, or the error event. -/
inductive ReqEvt where
  | success (result : JSVal)
  | error (e : ErrEvt)

/-- True exactly on a success event. -/
def ReqEvt.isSuccess : ReqEvt → Bool
  | ReqEvt.success _ => true
  | ReqEvt.error _ => false

/-- Event delivered to the handlers of a transaction: complete or
error. -/
inductive TxnEvt where
  | complete
  | error (e : ErrEvt)

/-- Event delivered to the handlers of a cursor request: a success event
whose result is the cursor positioned on a value (some v) or null after
exhaustion (none), or an error event. -/
inductive CursorEvt where
  | success (cursor : Option JSVal)
  | error (e : ErrEvt)

/-- The module-level cast helper of the source: returns its argument
unchanged. -/
def cast (v : JSVal) : JSVal := v

/-- Settlement of the _init_ promise (lines 137 to 195): when the host
lacks indexedDB the method rejects with its own Error; when open()
throws it rejects with the string-concatenated wrapper; otherwise the
open request error event is forwarded to reject and the success event
resolves with the database. -/
def initResult (supported : Bool) (openThrow : Option String)
    (outcome : OpenOutcome) : Except RejectVal IDBDatabase :=
  if supported then
    match openThrow with
    | some msg => Except.error (RejectVal.localError ("ERROR: " ++ msg))
    | none =>
      match outcome with
      | OpenOutcome.success db => Except.ok db
      | OpenOutcome.error e => Except.error (RejectVal.engineEvt e)
  else
    Except.error (RejectVal.localError "Browser kit does not support indexedDB")

/-- Settlement of the promise returned by getObjectByKey (lines 211 to
225): the cast (or the identity cast when none is supplied) applied to
the get request result on success, the forwarded error event on
error. -/
def getObjectByKeyResult (fn : Option (JSVal → JSVal)) (evt : ReqEvt) :
    Except RejectVal JSVal :=
  let f := fn.getD cast
  match evt with
  | ReqEvt.success r => Except.ok (f r)
  | ReqEvt.error e => Except.error (RejectVal.engineEvt e)

/-- The cursor onsuccess and onerror handler loop of getObjects (lines
246 to 257), processing the stream of cursor events with the res
accumulator: a value event pushes the cast value and continues, the
exhaustion event resolves with res, an error event rejects with the
forwarded event; none means the promise never settled. -/
def getObjectsLoop (fn : JSVal → JSVal) (res : List JSVal) :
    List CursorEvt → Option (Except RejectVal (List JSVal))
  | [] => none
  | CursorEvt.error e :: _ => some (Except.error (RejectVal.engineEvt e))
  | CursorEvt.success none :: _ => some (Except.ok res)
  | CursorEvt.success (some v) :: rest => getObjectsLoop fn (res ++ [fn v]) rest

/-- Settlement of the promise returned by getObjects, starting from the
empty accumulator with the supplied cast or the identity cast. -/
def getObjectsResult (fn : Option (JSVal → JSVal)) (evts : List CursorEvt) :
    Option (Except RejectVal (List JSVal)) :=
  getObjectsLoop (fn.getD cast) [] evts

/-- Settlement of the promise returned by getObjectsByIndex (lines 279
to 292): the same accumulate-and-continue handler loop as getObjects
(its rejection comes from the transaction onerror handler, which
forwards the event). -/
def getObjectsByIndexResult (fn : Option (JSVal → JSVal)) (evts : List CursorEvt) :
    Option (Except RejectVal (List JSVal)) :=
  getObjectsLoop (fn.getD cast) [] evts

/-- Settlement of the promise returned by removeObjectsByKey (lines 308
to 316): resolves with no value on the transaction complete event and
rejects with the forwarded event on the transaction error event. -/
def removeObjectsByKeyResult (txn : TxnEvt) : Except RejectVal Unit :=
  match txn with
  | TxnEvt.complete => Except.ok ()
  | TxnEvt.error e => Except.error (RejectVal.engineEvt e)

/-- Settlement of the promise returned by clearStore (lines 487 to 491):
resolves on the transaction complete event and rejects with the
forwarded event on its error event. -/
def clearStoreResult (txn : TxnEvt) : Except RejectVal Unit :=
  match txn with
  | TxnEvt.complete => Except.ok ()
  | TxnEvt.error e => Except.error (RejectVal.engineEvt e)

/-- Settlement of the promise returned by replaceObjectByKey (lines 329
to 356): an undefined key rejects with the adapter Error before any
engine call; otherwise the transaction complete event resolves with the
value argument and the transaction error event rejects with the error
property of the event. -/
def replaceObjectByKeyResult (key value : JSVal) (txn : TxnEvt) :
    Except RejectVal JSVal :=
  if key.isUndef then
    Except.error (RejectVal.localError "updateByIndex() needs a key value!")
  else
    match txn with
    | TxnEvt.complete => Except.ok value
    | TxnEvt.error e => Except.error (RejectVal.engineEvtError e)

/-- Outcome of the Promise.all over the per-element add request promises
of storeObjects (lines 465 to 470): resolves once every add request
fired success, rejects with the first forwarded error event. -/
def addRequestsOutcome : List ReqEvt → Except RejectVal Unit
  | [] => Except.ok ()
  | ReqEvt.success _ :: rest => addRequestsOutcome rest
  | ReqEvt.error e :: _ => Except.error (RejectVal.engineEvt e)

/-- Settlement of the promise returned by storeObjects (lines 442 to
476): Promise.all over the transaction promise (resolving with data on
complete, rejecting with the forwarded event on error) and the add
request promises, projected to the first value. A transaction error
event is given precedence in the model. -/
def storeObjectsResult (data : List JSVal) (txn : TxnEvt)
    (reqEvts : List ReqEvt) : Except RejectVal (List JSVal) :=
  match txn with
  | TxnEvt.error e => Except.error (RejectVal.engineEvt e)
  | TxnEvt.complete =>
    match addRequestsOutcome reqEvts with
    | Except.ok _ => Except.ok data
    | Except.error rv => Except.error rv

/-- The PutParams interface of the source: an optional index (never read
by updateObjectsByIndex), the property name and the new value. -/
structure PutParams where
  index : Option String
  name : String
  value : JSVal

/-- Association-list update used to model assignment of an object
property: replaces the binding of the name or appends it. -/
def setAssocField : List (String × JSVal) → String → JSVal →
    List (String × JSVal)
  | [], n, v => [(n, v)]
  | (k, w) :: rest, n, v =>
    if k = n then (n, v) :: rest else (k, w) :: setAssocField rest n v

/-- Assignment of a property on a dynamic value: updates the field on an
object and is a no-op on any other value. -/
def JSVal.setField : JSVal → String → JSVal → JSVal
  | JSVal.obj fields, n, v => JSVal.obj (setAssocField fields n v)
  | other, _, _ => other

/-- The updateOne helper of updateObjectsByIndex (lines 389 to 402)
restricted to its data effect: assigns every PutParams name its value on
the old record, yielding the value handed to put and to the inner
resolve. -/
def updateOne (params : List PutParams) (oldValue : JSVal) : JSVal :=
  params.foldl (fun acc p => JSVal.setField acc p.name p.value) oldValue

/-- Value with which the inner promiseA of updateObjectsByIndex resolves
(lines 405 to 421): with allMatches the array of every updated match,
otherwise the single updated record found by the index get request. -/
def updatePromiseAValue (params : List PutParams) (allMatches : Bool)
    (matchedVals : List JSVal) (found : JSVal) : JSVal :=
  if allMatches then JSVal.arr (matchedVals.map (updateOne params))
  else updateOne params found

/-- Settlement of the promise returned by updateObjectsByIndex on the
paths on which it settles (lines 373 to 434): empty params or an
undefined index reject with the adapter Errors; otherwise, once every
put succeeded and the transaction completed, Promise.all of promiseA and
promiseB is projected through values mapped to the singleton of
values[0], so the method resolves with the one-element array holding the
promiseA value. -/
def updateObjectsByIndexResult (index : Option String) (params : List PutParams)
    (allMatches : Bool) (matchedVals : List JSVal) (found : JSVal) :
    Except RejectVal (List JSVal) :=
  match params, index with
  | [], _ =>
    Except.error (RejectVal.localError "updateByIndex() needs at least one PutParams")
  | _ :: _, none =>
    Except.error (RejectVal.localError "updateByProperty() needs index of the value!")
  | _ :: _, some _ =>
    Except.ok [updatePromiseAValue params allMatches matchedVals found]

/-- Store scope argument of getTransaction: the source accepts a single
store name or an array of names. -/
inductive StoreScope where
  | one (store : String)
  | many (stores : List String)
deriving Repr, DecidableEq

/-- Lifecycle call on the engine: opening a database by name and
version, starting a transaction on the resulting handle, or closing a
handle (which the source never does). -/
inductive LifecycleOp where
  | openDB (name : String) (version : Int)
  | transaction (stores : StoreScope) (mode : String)
  | closeDB
deriving Repr, DecidableEq

/-- True exactly on an openDB lifecycle call. -/
def LifecycleOp.isOpen : LifecycleOp → Bool
  | LifecycleOp.openDB _ _ => true
  | _ => false

/-- True exactly on a closeDB lifecycle call. -/
def LifecycleOp.isClose : LifecycleOp → Bool
  | LifecycleOp.closeDB => true
  | _ => false

/-- Engine request issued inside a transaction. -/
inductive EngineOp where
  | get (store : String) (key : JSVal)
  | openCursor (store : String) (key : Option JSVal) (dir : Option Direction)
  | indexOpenCursor (store index : String) (key : Option JSVal) (dir : Option Direction)
  | indexGet (store index : String) (key : JSVal)
  | delete (store : String) (key : JSVal)
  | add (store : String) (value : JSVal)
  | put (store : String) (value : JSVal)
  | clear (store : String)

/-- Calls a method makes against the engine: its lifecycle calls and the
engine requests it issues, in order. -/
structure MethodRun where
  lifecycle : List LifecycleOp
  engineOps : List EngineOp

/-- Lifecycle calls of _init_ (lines 137 to 161) on the path where the
host provides indexedDB and open() does not throw: one fresh open of the
configured database name and version. -/
def IDBService.initTrace (svc : IDBService) : List LifecycleOp :=
  [LifecycleOp.openDB svc.database svc.version]

/-- Lifecycle calls of getTransaction (lines 199 to 201): it always
calls _init_ and then starts one transaction on the fresh handle with
the requested scope and mode. -/
def IDBService.getTransactionTrace (svc : IDBService) (stores : StoreScope)
    (mode : String) : List LifecycleOp :=
  svc.initTrace ++ [LifecycleOp.transaction stores mode]

/-- Run of getObjectByKey (lines 211 to 225): a readonly transaction and
one get request. -/
def getObjectByKeyRun (svc : IDBService) (stores : StoreScope) (store : String)
    (keyRange : JSVal) : MethodRun :=
  { lifecycle := svc.getTransactionTrace stores "readonly"
    engineOps := [EngineOp.get store keyRange] }

/-- Run of getObjects (lines 234 to 258): a readonly transaction and one
cursor opened with the direction of getObjectsDir. -/
def getObjectsRun (svc : IDBService) (stores : StoreScope) (store : String)
    (keyRange : Option JSVal) (reverse : Bool) : MethodRun :=
  { lifecycle := svc.getTransactionTrace stores "readonly"
    engineOps := [EngineOp.openCursor store keyRange (getObjectsDir reverse)] }

/-- Run of getObjectsByIndex (lines 271 to 294): a readonly transaction
and one cursor opened on the index with the direction of
getObjectsByIndexDir. -/
def getObjectsByIndexRun (svc : IDBService) (stores : StoreScope)
    (store index : String) (range : Option JSVal) (reverse : Bool) : MethodRun :=
  { lifecycle := svc.getTransactionTrace stores "readonly"
    engineOps := [EngineOp.indexOpenCursor store index range (getObjectsByIndexDir reverse)] }

/-- Run of removeObjectsByKey (lines 303 to 318): a readwrite
transaction and one delete request for the range. -/
def removeObjectsByKeyRun (svc : IDBService) (stores : StoreScope)
    (store : String) (range : JSVal) : MethodRun :=
  { lifecycle := svc.getTransactionTrace stores "readwrite"
    engineOps := [EngineOp.delete store range] }

/-- Run of replaceObjectByKey (lines 329 to 356): an undefined key
rejects before any engine call; otherwise a readwrite transaction, a
delete request, and, on the delete success event, an add request for the
new value. -/
def replaceObjectByKeyRun (svc : IDBService) (store : String)
    (key value : JSVal) (deleteSucceeds : Bool) : MethodRun :=
  if key.isUndef then
    { lifecycle := [], engineOps := [] }
  else
    { lifecycle := svc.getTransactionTrace (StoreScope.one store) "readwrite"
      engineOps :=
        EngineOp.delete store key ::
          (if deleteSucceeds then [EngineOp.add store value] else []) }

/-- Run of updateObjectsByIndex (lines 373 to 434): validation failures
reject before any engine call; with allMatches one index cursor and one
put per matched record; otherwise one index get and one put of the
updated record. -/
def updateObjectsByIndexRun (svc : IDBService) (store : String)
    (index : Option String) (indexVal : JSVal) (params : List PutParams)
    (allMatches : Bool) (matchedVals : List JSVal) (found : JSVal) : MethodRun :=
  match params, index with
  | [], _ => { lifecycle := [], engineOps := [] }
  | _ :: _, none => { lifecycle := [], engineOps := [] }
  | _ :: _, some idx =>
    { lifecycle := svc.getTransactionTrace (StoreScope.one store) "readwrite"
      engineOps :=
        if allMatches then
          EngineOp.indexOpenCursor store idx (some indexVal) none ::
            matchedVals.map (fun m => EngineOp.put store (updateOne params m))
        else
          [EngineOp.indexGet store idx indexVal,
           EngineOp.put store (updateOne params found)] }

/-- Run of storeObjects (lines 442 to 476): a readwrite transaction and
one add request per element of data, in array order. -/
def storeObjectsRun (svc : IDBService) (store : String)
    (data : List JSVal) : MethodRun :=
  { lifecycle := svc.getTransactionTrace (StoreScope.one store) "readwrite"
    engineOps := data.map (EngineOp.add store) }

/-- Run of clearStore (lines 484 to 493): a readwrite transaction and
one clear request. -/
def clearStoreRun (svc : IDBService) (store : String) : MethodRun :=
  { lifecycle := svc.getTransactionTrace (StoreScope.one store) "readwrite"
    engineOps := [EngineOp.clear store] }

/-- Concrete configuration omitting the optional callbacks, used to
instantiate the theorems at explicit inputs. -/
def cfgNoVC : IDBServiceConfig :=
  { database := "db"
    version := 1
    onUpgradeNeeded := fun db => db
    onVersionChange := none
    onBlocked := none }

/-- Concrete service instance built from cfgNoVC. -/
def svc0 : IDBService := IDBService.make cfgNoVC

/-- Classification of an adapter-constructed rejection as one the source
explicitly creates: a message of localMsgs or the open() exception
wrapper prefixing the thrown value. -/
def RejectVal.ListedLocal : RejectVal → Prop
  | RejectVal.localError msg => msg ∈ localMsgs ∨ ∃ s, msg = "ERROR: " ++ s
  | _ => False

/-- Helper: the cursor handler loop shifts a block of value events into
the accumulator. -/
theorem getObjectsLoop_append (fn : JSVal → JSVal) (acc : List JSVal)
    (vs : List JSVal) (rest : List CursorEvt) :
    getObjectsLoop fn acc ((vs.map fun v => CursorEvt.success (some v)) ++ rest)
      = getObjectsLoop fn (acc ++ vs.map fn) rest := by
  induction vs generalizing acc with
  | nil => simp
  | cons v vs ih => simp [getObjectsLoop, ih]

/-- Helper: without the exhaustion event the cursor promise never
settles. -/
theorem getObjectsLoop_values_pending (fn : JSVal → JSVal) (acc : List JSVal)
    (vs : List JSVal) :
    getObjectsLoop fn acc (vs.map fun v => CursorEvt.success (some v)) = none := by
  induction vs generalizing acc with
  | nil => rfl
  | cons v vs ih => simpa [getObjectsLoop] using ih _

/-- Helper: the identity cast maps a list to itself. -/
theorem map_cast_id (vs : List JSVal) : vs.map cast = vs := by
  induction vs with
  | nil => rfl
  | cons v vs ih => simp [cast, ih]

/-- Helper: every rejection of the cursor handler loop forwards an
engine error event. -/
theorem getObjectsLoop_error_engine (fn : JSVal → JSVal) :
    ∀ (evts : List CursorEvt) (acc : List JSVal) (rv : RejectVal),
      getObjectsLoop fn acc evts = some (Except.error rv) →
      rv.isEngineForward = true := by
  intro evts
  induction evts with
  | nil => intro acc rv h; simp [getObjectsLoop] at h
  | cons ev rest ih =>
    intro acc rv h
    cases ev with
    | error e =>
      simp [getObjectsLoop] at h
      subst h; rfl
    | success c =>
      cases c with
      | none => simp [getObjectsLoop] at h
      | some v => exact ih _ _ (by simpa [getObjectsLoop] using h)

/-- Helper: the Promise.all over add requests resolves when every
request fired success. -/
theorem addRequestsOutcome_all_success (vs : List JSVal) :
    addRequestsOutcome (vs.map ReqEvt.success) = Except.ok () := by
  induction vs with
  | nil => rfl
  | cons v vs ih => simpa [addRequestsOutcome] using ih

/-- Helper: the Promise.all over add requests rejects with the first
forwarded error event. -/
theorem addRequestsOutcome_first_error (vs : List JSVal) (e : ErrEvt)
    (rest : List ReqEvt) :
    addRequestsOutcome (vs.map ReqEvt.success ++ ReqEvt.error e :: rest)
      = Except.error (RejectVal.engineEvt e) := by
  induction vs with
  | nil => rfl
  | cons v vs ih => simpa [addRequestsOutcome] using ih

/-- Helper: every rejection of the add request Promise.all forwards an
engine error event. -/
theorem addRequestsOutcome_error_engine :
    ∀ (reqEvts : List ReqEvt) (rv : RejectVal),
      addRequestsOutcome reqEvts = Except.error rv → rv.isEngineForward = true := by
  intro reqEvts
  induction reqEvts with
  | nil => intro rv h; simp [addRequestsOutcome] at h
  | cons ev rest ih =>
    intro rv h
    cases ev with
    | success r => exact ih _ (by simpa [addRequestsOutcome] using h)
    | error e =>
      simp [addRequestsOutcome] at h
      subst h; rfl

/-- C1: during _init_, the upgradeneeded handler invokes the configured
onUpgradeNeeded callback on the database instance exactly when the
retained onVersionChange callback applied to that database returns true;
a provided onVersionChange is retained unchanged by the constructor, and
an omitted one is replaced by the constant-true default, so that
onUpgradeNeeded is always invoked on upgrade. -/
theorem upgradeNeeded_iff_onVersionChange (cfg : IDBServiceConfig) (db : IDBDatabase) :
    (CallbackCall.upgradeNeeded db ∈ upgradeHandlerTrace (IDBService.make cfg) db
      ↔ (IDBService.make cfg).cfgOnVersionChange db = true)
    ∧ (∀ f, cfg.onVersionChange = some f →
        (IDBService.make cfg).cfgOnVersionChange = f)
    ∧ (cfg.onVersionChange = none →
        (IDBService.make cfg).cfgOnVersionChange db = true
        ∧ CallbackCall.upgradeNeeded db ∈ upgradeHandlerTrace (IDBService.make cfg) db) := by
  refine ⟨?_, ?_, ?_⟩
  · by_cases h : (IDBService.make cfg).cfgOnVersionChange db
    · simp [upgradeHandlerTrace, h]
    · simp [upgradeHandlerTrace, h]
  · intro f hf
    simp [IDBService.make, hf]
  · intro hn
    refine ⟨?_, ?_⟩
    · simp [IDBService.make, hn]
    · simp [upgradeHandlerTrace, IDBService.make, hn]

/-- Witness for C1: with the optional onVersionChange omitted,
onUpgradeNeeded is invoked on upgrade. -/
theorem upgradeNeeded_iff_onVersionChange_witness :
    CallbackCall.upgradeNeeded ⟨0⟩ ∈ upgradeHandlerTrace (IDBService.make cfgNoVC) ⟨0⟩ :=
  ((upgradeNeeded_iff_onVersionChange cfgNoVC ⟨0⟩).2.2 rfl).2

/-- C4: getObjects resolves with the array of all values the cursor
visited, in cursor order, each mapped through the supplied cast (or the
identity cast when none is supplied), exactly when the exhaustion event
arrives; without it the promise stays pending, and a cursor error event
rejects with the forwarded event. -/
theorem getObjects_cursor_collect (fn : Option (JSVal → JSVal)) (vs : List JSVal)
    (e : ErrEvt) (rest : List CursorEvt) :
    getObjectsResult fn ((vs.map fun v => CursorEvt.success (some v)) ++ [CursorEvt.success none])
      = some (Except.ok (vs.map (fn.getD cast)))
    ∧ getObjectsResult none ((vs.map fun v => CursorEvt.success (some v)) ++ [CursorEvt.success none])
      = some (Except.ok vs)
    ∧ getObjectsResult fn (vs.map fun v => CursorEvt.success (some v)) = none
    ∧ getObjectsResult fn ((vs.map fun v => CursorEvt.success (some v)) ++ CursorEvt.error e :: rest)
      = some (Except.error (RejectVal.engineEvt e)) := by
  refine ⟨?_, ?_, ?_, ?_⟩
  · rw [getObjectsResult, getObjectsLoop_append]
    simp [getObjectsLoop]
  · rw [getObjectsResult, getObjectsLoop_append]
    simp [getObjectsLoop, map_cast_id]
  · exact getObjectsLoop_values_pending _ [] vs
  · rw [getObjectsResult, getObjectsLoop_append]
    simp [getObjectsLoop]

/-- C5: getObjectByKey resolves, on the get request success event, with
the cast applied to the request result — the identity cast when none is
supplied, so the engine result is returned unchanged — and rejects with
the forwarded event when the error event fires; it issues exactly the
one get request. -/
theorem getObjectByKey_result_spec (svc : IDBService) (stores : StoreScope)
    (store : String) (keyRange r : JSVal) (f : JSVal → JSVal)
    (fn : Option (JSVal → JSVal)) (e : ErrEvt) :
    getObjectByKeyResult (some f) (ReqEvt.success r) = Except.ok (f r)
    ∧ getObjectByKeyResult none (ReqEvt.success r) = Except.ok r
    ∧ getObjectByKeyResult fn (ReqEvt.error e) = Except.error (RejectVal.engineEvt e)
    ∧ (getObjectByKeyRun svc stores store keyRange).engineOps
        = [EngineOp.get store keyRange] :=
  ⟨rfl, rfl, rfl, rfl⟩

/-- C7: removeObjectsByKey starts a readwrite transaction, issues the
single delete for the key range, resolves with no value exactly on the
transaction complete event, and rejects with the forwarded event on the
transaction error event; since these are the only two transaction
events, it never resolves before the transaction completes. -/
theorem removeObjectsByKey_spec (svc : IDBService) (stores : StoreScope)
    (store : String) (range : JSVal) (e : ErrEvt) :
    (removeObjectsByKeyRun svc stores store range).lifecycle
      = svc.getTransactionTrace stores "readwrite"
    ∧ (removeObjectsByKeyRun svc stores store range).engineOps
      = [EngineOp.delete store range]
    ∧ removeObjectsByKeyResult TxnEvt.complete = Except.ok ()
    ∧ removeObjectsByKeyResult (TxnEvt.error e) = Except.error (RejectVal.engineEvt e) :=
  ⟨rfl, rfl, rfl, rfl⟩

/-- C8: in the TypeScript source getObjects opens its cursor with prev
when reverse is false and the default direction when reverse is true,
getObjectsByIndex opens its cursor with prev exactly when reverse is
true, and the compiled JavaScript getObjects agrees with
getObjectsByIndex; hence on the same records and the same reverse flag,
getObjects and getObjectsByIndex traverse in opposite orders. -/
theorem cursor_direction_discrepancy (reverse : Bool) (records : List JSVal) :
    getObjectsDir false = some Direction.prev
    ∧ getObjectsDir true = none
    ∧ getObjectsByIndexDir true = some Direction.prev
    ∧ getObjectsByIndexDir false = none
    ∧ getObjectsDirJS reverse = getObjectsByIndexDir reverse
    ∧ cursorVisitOrder records (getObjectsDir reverse)
        = (cursorVisitOrder records (getObjectsByIndexDir reverse)).reverse := by
  cases reverse <;>
    simp [getObjectsDir, getObjectsByIndexDir, getObjectsDirJS, cursorVisitOrder]

/-- C9: updateObjectsByIndex resolves with the one-element array holding
the inner promiseA value: the array of all updated records when
allMatches is true (so the result is a one-element array whose sole
element is that array), and the single updated record when allMatches is
false. -/
theorem updateObjectsByIndex_singleton_result (idx : String) (p : PutParams)
    (ps : List PutParams) (allM : Bool) (matchedVals : List JSVal) (found : JSVal) :
    updateObjectsByIndexResult (some idx) (p :: ps) allM matchedVals found
      = Except.ok [updatePromiseAValue (p :: ps) allM matchedVals found]
    ∧ updatePromiseAValue (p :: ps) true matchedVals found
      = JSVal.arr (matchedVals.map (updateOne (p :: ps)))
    ∧ updatePromiseAValue (p :: ps) false matchedVals found = updateOne (p :: ps) found
    ∧ [updatePromiseAValue (p :: ps) allM matchedVals found].length = 1 :=
  ⟨rfl, rfl, rfl, rfl⟩

/-- C2 counterexample: storeObjects on a two-element array issues two
engine add requests, so not every public data operation issues exactly
one engine operation. -/
theorem storeObjects_not_single_operation :
    (storeObjectsRun svc0 "s" [JSVal.num 1, JSVal.num 2]).engineOps.length ≠ 1 := by
  simp [storeObjectsRun]

/-- C2 amended: every public data operation opens a database handle,
starts one transaction on it, and issues one or more engine operations:
exactly one for getObjectByKey, getObjects, getObjectsByIndex,
removeObjectsByKey and clearStore, a delete followed on its success by
an add for replaceObjectByKey, one add per data element for
storeObjects, and one index lookup plus one put per updated record for
updateObjectsByIndex. -/
theorem method_shape_amended (svc : IDBService) (stores : StoreScope)
    (store idx s : String) (indexVal value found : JSVal) (keyRange : JSVal)
    (keyOpt : Option JSVal) (reverse delOk allM : Bool)
    (data matchedVals : List JSVal) (p : PutParams) (ps : List PutParams) :
    (getObjectByKeyRun svc stores store keyRange).lifecycle
        = [LifecycleOp.openDB svc.database svc.version,
           LifecycleOp.transaction stores "readonly"]
    ∧ (getObjectsRun svc stores store keyOpt reverse).lifecycle
        = [LifecycleOp.openDB svc.database svc.version,
           LifecycleOp.transaction stores "readonly"]
    ∧ (getObjectsByIndexRun svc stores store idx keyOpt reverse).lifecycle
        = [LifecycleOp.openDB svc.database svc.version,
           LifecycleOp.transaction stores "readonly"]
    ∧ (removeObjectsByKeyRun svc stores store keyRange).lifecycle
        = [LifecycleOp.openDB svc.database svc.version,
           LifecycleOp.transaction stores "readwrite"]
    ∧ (replaceObjectByKeyRun svc store (JSVal.str s) value delOk).lifecycle
        = [LifecycleOp.openDB svc.database svc.version,
           LifecycleOp.transaction (StoreScope.one store) "readwrite"]
    ∧ (updateObjectsByIndexRun svc store (some idx) indexVal (p :: ps) allM matchedVals found).lifecycle
        = [LifecycleOp.openDB svc.database svc.version,
           LifecycleOp.transaction (StoreScope.one store) "readwrite"]
    ∧ (storeObjectsRun svc store data).lifecycle
        = [LifecycleOp.openDB svc.database svc.version,
           LifecycleOp.transaction (StoreScope.one store) "readwrite"]
    ∧ (clearStoreRun svc store).lifecycle
        = [LifecycleOp.openDB svc.database svc.version,
           LifecycleOp.transaction (StoreScope.one store) "readwrite"]
    ∧ (getObjectByKeyRun svc stores store keyRange).engineOps.length = 1
    ∧ (getObjectsRun svc stores store keyOpt reverse).engineOps.length = 1
    ∧ (getObjectsByIndexRun svc stores store idx keyOpt reverse).engineOps.length = 1
    ∧ (removeObjectsByKeyRun svc stores store keyRange).engineOps.length = 1
    ∧ (clearStoreRun svc store).engineOps.length = 1
    ∧ (replaceObjectByKeyRun svc store (JSVal.str s) value delOk).engineOps.length
        = (if delOk then 2 else 1)
    ∧ (storeObjectsRun svc store data).engineOps.length = data.length
    ∧ (updateObjectsByIndexRun svc store (some idx) indexVal (p :: ps) true matchedVals found).engineOps.length
        = matchedVals.length + 1
    ∧ (updateObjectsByIndexRun svc store (some idx) indexVal (p :: ps) false matchedVals found).engineOps.length
        = 2 := by
  cases delOk <;>
    simp [getObjectByKeyRun, getObjectsRun, getObjectsByIndexRun,
      removeObjectsByKeyRun, replaceObjectByKeyRun, updateObjectsByIndexRun,
      storeObjectsRun, clearStoreRun, IDBService.getTransactionTrace,
      IDBService.initTrace, JSVal.isUndef]

/-- C3 counterexample: replaceObjectByKey called with an undefined key
rejects with an Error the adapter constructed itself, which is not a
forwarded engine error event. -/
theorem replaceObjectByKey_local_rejection :
    replaceObjectByKeyResult JSVal.undef (JSVal.num 0) TxnEvt.complete
      = Except.error (RejectVal.localError "updateByIndex() needs a key value!")
    ∧ RejectVal.isEngineForward
        (RejectVal.localError "updateByIndex() needs a key value!") = false :=
  ⟨rfl, rfl⟩

/-- C3 amended: every rejected promise either forwards an engine error
event (the event itself, or its error property in replaceObjectByKey)
or carries one of the adapter-constructed errors of the source: the
missing-indexedDB error and open() exception wrapper in _init_, the
undefined-key check in replaceObjectByKey, and the empty-params and
undefined-index checks in updateObjectsByIndex. -/
theorem rejections_forward_or_listed (supported : Bool) (openThrow : Option String)
    (outcome : OpenOutcome) (fn : Option (JSVal → JSVal)) (evt : ReqEvt)
    (evts : List CursorEvt) (txn : TxnEvt) (data : List JSVal)
    (reqEvts : List ReqEvt) (key value found : JSVal)
    (index : Option String) (params : List PutParams) (allM : Bool)
    (matchedVals : List JSVal) :
    (∀ rv, initResult supported openThrow outcome = Except.error rv →
      rv.isEngineForward = true ∨ rv.ListedLocal)
    ∧ (∀ rv, getObjectByKeyResult fn evt = Except.error rv →
        rv.isEngineForward = true)
    ∧ (∀ rv, getObjectsResult fn evts = some (Except.error rv) →
        rv.isEngineForward = true)
    ∧ (∀ rv, getObjectsByIndexResult fn evts = some (Except.error rv) →
        rv.isEngineForward = true)
    ∧ (∀ rv, removeObjectsByKeyResult txn = Except.error rv →
        rv.isEngineForward = true)
    ∧ (∀ rv, clearStoreResult txn = Except.error rv →
        rv.isEngineForward = true)
    ∧ (∀ rv, storeObjectsResult data txn reqEvts = Except.error rv →
        rv.isEngineForward = true)
    ∧ (∀ rv, replaceObjectByKeyResult key value txn = Except.error rv →
        rv.isEngineForward = true ∨ rv.ListedLocal)
    ∧ (∀ rv, updateObjectsByIndexResult index params allM matchedVals found
          = Except.error rv → rv.ListedLocal) := by
  refine ⟨?_, ?_, ?_, ?_, ?_, ?_, ?_, ?_, ?_⟩
  · intro rv h
    cases supported with
    | false =>
      simp [initResult] at h
      subst h
      exact Or.inr (Or.inl (by simp [localMsgs]))
    | true =>
      cases openThrow with
      | some msg =>
        simp [initResult] at h
        subst h
        exact Or.inr (Or.inr ⟨msg, rfl⟩)
      | none =>
        cases outcome with
        | success db => simp [initResult] at h
        | error e =>
          simp [initResult] at h
          subst h
          exact Or.inl rfl
  · intro rv h
    cases evt with
    | success r => simp [getObjectByKeyResult] at h
    | error e =>
      simp [getObjectByKeyResult] at h
      subst h; rfl
  · intro rv h
    exact getObjectsLoop_error_engine _ _ _ _ h
  · intro rv h
    exact getObjectsLoop_error_engine _ _ _ _ h
  · intro rv h
    cases txn with
    | complete => simp [removeObjectsByKeyResult] at h
    | error e =>
      simp [removeObjectsByKeyResult] at h
      subst h; rfl
  · intro rv h
    cases txn with
    | complete => simp [clearStoreResult] at h
    | error e =>
      simp [clearStoreResult] at h
      subst h; rfl
  · intro rv h
    cases txn with
    | error e =>
      simp [storeObjectsResult] at h
      subst h; rfl
    | complete =>
      cases h2 : addRequestsOutcome reqEvts with
      | ok u => simp [storeObjectsResult, h2] at h
      | error rv2 =>
        simp [storeObjectsResult, h2] at h
        subst h
        exact addRequestsOutcome_error_engine _ _ h2
  · intro rv h
    cases hk : key.isUndef with
    | true =>
      simp [replaceObjectByKeyResult, hk] at h
      subst h
      exact Or.inr (Or.inl (by simp [localMsgs]))
    | false =>
      cases txn with
      | complete => simp [replaceObjectByKeyResult, hk] at h
      | error e =>
        simp [replaceObjectByKeyResult, hk] at h
        subst h
        exact Or.inl rfl
  · intro rv h
    cases params with
    | nil =>
      simp [updateObjectsByIndexResult] at h
      subst h
      exact Or.inl (by simp [localMsgs])
    | cons p ps =>
      cases index with
      | none =>
        simp [updateObjectsByIndexResult] at h
        subst h
        exact Or.inl (by simp [localMsgs])
      | some idx => simp [updateObjectsByIndexResult] at h

/-- Witness for the amended C3: a getObjectByKey rejection forwards the
engine error event. -/
theorem rejections_forward_or_listed_witness :
    RejectVal.isEngineForward (RejectVal.engineEvt ⟨0⟩) = true :=
  (rejections_forward_or_listed true none (OpenOutcome.error ⟨0⟩) none
      (ReqEvt.error ⟨0⟩) [] TxnEvt.complete [] [] JSVal.undef JSVal.undef
      JSVal.undef none [] false []).2.1 (RejectVal.engineEvt ⟨0⟩) rfl

/-- C6: storeObjects starts one readwrite transaction, issues one add
request per element of data in array order, resolves with the given
data array exactly when the transaction completed and every add request
fired success, and rejects with a forwarded engine error event when any
add request or the transaction errors; every resolution value is the
data array itself. -/
theorem storeObjects_spec (svc : IDBService) (store : String)
    (data vs : List JSVal) (e : ErrEvt) (rest reqEvts : List ReqEvt)
    (txn : TxnEvt) :
    (storeObjectsRun svc store data).lifecycle
      = svc.getTransactionTrace (StoreScope.one store) "readwrite"
    ∧ (storeObjectsRun svc store data).engineOps = data.map (EngineOp.add store)
    ∧ storeObjectsResult data TxnEvt.complete (vs.map ReqEvt.success) = Except.ok data
    ∧ storeObjectsResult data TxnEvt.complete (vs.map ReqEvt.success ++ ReqEvt.error e :: rest)
      = Except.error (RejectVal.engineEvt e)
    ∧ storeObjectsResult data (TxnEvt.error e) reqEvts
      = Except.error (RejectVal.engineEvt e)
    ∧ (storeObjectsResult data txn reqEvts = Except.ok data
        ∨ ∃ rv, storeObjectsResult data txn reqEvts = Except.error rv) := by
  refine ⟨rfl, rfl, ?_, ?_, rfl, ?_⟩
  · simp [storeObjectsResult, addRequestsOutcome_all_success]
  · simp [storeObjectsResult, addRequestsOutcome_first_error]
  · cases txn with
    | error e2 => exact Or.inr ⟨_, rfl⟩
    | complete =>
      cases h2 : addRequestsOutcome reqEvts with
      | ok u => exact Or.inl (by simp [storeObjectsResult, h2])
      | error rv => exact Or.inr ⟨rv, by simp [storeObjectsResult, h2]⟩

/-- C10: every public operation opens a brand-new connection:
getTransaction always runs _init_, which issues one fresh open with the
configured name and version; every method run performs exactly that
open followed by its one transaction, no run ever closes a handle, the
constructor leaves the private _db field unassigned, and no run or
trace reads _db (replacing it changes nothing). -/
theorem fresh_connection_every_operation (cfg : IDBServiceConfig)
    (svc : IDBService) (d : Option IDBDatabase) (stores : StoreScope)
    (mode store idx s : String) (keyRange indexVal value found : JSVal)
    (keyOpt : Option JSVal) (reverse delOk allM : Bool)
    (data matchedVals : List JSVal) (p : PutParams) (ps : List PutParams) :
    (IDBService.make cfg)._db = none
    ∧ svc.initTrace = [LifecycleOp.openDB svc.database svc.version]
    ∧ svc.getTransactionTrace stores mode
        = svc.initTrace ++ [LifecycleOp.transaction stores mode]
    ∧ (svc.getTransactionTrace stores mode).countP LifecycleOp.isOpen = 1
    ∧ (svc.getTransactionTrace stores mode).countP LifecycleOp.isClose = 0
    ∧ ({svc with _db := d}).getTransactionTrace stores mode
        = svc.getTransactionTrace stores mode
    ∧ getObjectByKeyRun {svc with _db := d} stores store keyRange
        = getObjectByKeyRun svc stores store keyRange
    ∧ getObjectsRun {svc with _db := d} stores store keyOpt reverse
        = getObjectsRun svc stores store keyOpt reverse
    ∧ getObjectsByIndexRun {svc with _db := d} stores store idx keyOpt reverse
        = getObjectsByIndexRun svc stores store idx keyOpt reverse
    ∧ removeObjectsByKeyRun {svc with _db := d} stores store keyRange
        = removeObjectsByKeyRun svc stores store keyRange
    ∧ replaceObjectByKeyRun {svc with _db := d} store (JSVal.str s) value delOk
        = replaceObjectByKeyRun svc store (JSVal.str s) value delOk
    ∧ updateObjectsByIndexRun {svc with _db := d} store (some idx) indexVal (p :: ps) allM matchedVals found
        = updateObjectsByIndexRun svc store (some idx) indexVal (p :: ps) allM matchedVals found
    ∧ storeObjectsRun {svc with _db := d} store data = storeObjectsRun svc store data
    ∧ clearStoreRun {svc with _db := d} store = clearStoreRun svc store
    ∧ (getObjectByKeyRun svc stores store keyRange).lifecycle.countP LifecycleOp.isClose = 0
    ∧ (getObjectsRun svc stores store keyOpt reverse).lifecycle.countP LifecycleOp.isClose = 0
    ∧ (getObjectsByIndexRun svc stores store idx keyOpt reverse).lifecycle.countP LifecycleOp.isClose = 0
    ∧ (removeObjectsByKeyRun svc stores store keyRange).lifecycle.countP LifecycleOp.isClose = 0
    ∧ (replaceObjectByKeyRun svc store (JSVal.str s) value delOk).lifecycle.countP LifecycleOp.isClose = 0
    ∧ (updateObjectsByIndexRun svc store (some idx) indexVal (p :: ps) allM matchedVals found).lifecycle.countP LifecycleOp.isClose = 0
    ∧ (storeObjectsRun svc store data).lifecycle.countP LifecycleOp.isClose = 0
    ∧ (clearStoreRun svc store).lifecycle.countP LifecycleOp.isClose = 0 := by
  refine ⟨rfl, rfl, rfl, ?_, ?_, rfl, rfl, rfl, rfl, rfl, ?_, ?_, rfl, rfl,
    ?_, ?_, ?_, ?_, ?_, ?_, ?_, ?_⟩ <;>
    simp [getObjectByKeyRun, getObjectsRun, getObjectsByIndexRun,
      removeObjectsByKeyRun, replaceObjectByKeyRun, updateObjectsByIndexRun,
      storeObjectsRun, clearStoreRun, IDBService.getTransactionTrace,
      IDBService.initTrace, JSVal.isUndef, LifecycleOp.isOpen,
      LifecycleOp.isClose, List.countP_cons, List.countP_nil]

end KmdIdb
